import Mathlib

/-!
Verification of the odiff_py wrapper library (`src/odiff_py`).

The development shallowly embeds the pure content of the repository:

* Python string primitives used by the wrapper (`str.partition`, `str.split`,
  `str.rstrip`, the `int()` / `float()` literal grammar) are modelled on
  `List Char`, with structural recursion so the kernel can evaluate them.
* PIL images are modelled as a width, a height and a total pixel function
  `Int → Int → RGBA`; `Image.paste` with an alpha mask and
  `ImageDraw.rectangle` (inclusive bounds, 2 pixel inward outline) are
  modelled pixelwise.  The exact fixed-point rounding of PIL's blend is
  immaterial to every claim (both sides of each equation use the same
  `pasteMask`), we use truncating division.
* The APNG byte buffer produced by the external `apngasm` assembler is
  modelled by the exact frame/delay sequence handed to the assembler; the
  base64 text of the buffer is a parameter of the rendering functions.
-/

namespace OdiffPy

/-! ## Python string primitives -/

/-- Split a character list at the first occurrence of `sep`:
the pair (text before, text after).  When `sep` does not occur the second
component is empty — exactly the two components of Python's
`str.partition` that `_odiff` uses. -/
def chSplitFirst (sep : Char) : List Char → List Char × List Char
  | [] => ([], [])
  | c :: rest =>
    if c = sep then ([], rest)
    else
      let p := chSplitFirst sep rest
      (c :: p.1, p.2)

/-- Python `str.split(sep)` on character lists: `chSplit sep [] = [[]]`,
matching `"".split(",") == [""]`. -/
def chSplit (sep : Char) : List Char → List (List Char)
  | [] => [[]]
  | c :: rest =>
    let r := chSplit sep rest
    if c = sep then [] :: r
    else
      match r with
      | [] => [[c]]
      | h :: t => (c :: h) :: t

/-- Python `str.strip()` (no argument): drop whitespace on both ends. -/
def pyStripChars (cs : List Char) : List Char :=
  ((cs.dropWhile Char.isWhitespace).reverse.dropWhile Char.isWhitespace).reverse

/-- Python `str.rstrip()` (no argument): drop trailing whitespace. -/
def chRStrip (cs : List Char) : List Char :=
  (cs.reverse.dropWhile Char.isWhitespace).reverse

/-- Numeric value of a decimal digit character. -/
def digitVal (c : Char) : Nat := c.toNat - 48

/-- Value of a nonempty all-digit character list, `none` otherwise. -/
def decDigitsVal? (cs : List Char) : Option Nat :=
  if cs = [] then none
  else if cs.all Char.isDigit then
    some (cs.foldl (fun acc c => acc * 10 + digitVal c) 0)
  else none

/-- Optional sign followed by a nonempty digit string. -/
def pySignedDigits? : List Char → Option Int
  | '+' :: rest => (decDigitsVal? rest).map Int.ofNat
  | '-' :: rest => (decDigitsVal? rest).map (fun n => -(Int.ofNat n))
  | cs => (decDigitsVal? cs).map Int.ofNat

/-- Python `int(str)` on character lists: surrounding whitespace, an optional
sign and a nonempty digit string (digit-group underscores, which the odiff
stdout protocol never produces, are outside the modelled grammar). -/
def pyIntChars? (cs : List Char) : Option Int :=
  pySignedDigits? (pyStripChars cs)

/-- Python `int(str)`. -/
def pyInt? (s : String) : Option Int := pyIntChars? s.data

/-- Value of the digit list as a natural number (0 for the empty list). -/
def decDigitsNat (cs : List Char) : Nat :=
  cs.foldl (fun acc c => acc * 10 + digitVal c) 0

/-- Unsigned part of the Python `float(str)` literal grammar:
`digits [. digits] [exponent]` or `. digits [exponent]`, valued in `ℚ`
(`inf` / `nan` literals and digit-group underscores, never produced by the
odiff stdout protocol, are outside the modelled grammar). -/
def pyUnsignedFloat? (cs : List Char) : Option Rat :=
  let intDs := cs.takeWhile Char.isDigit
  let rest1 := cs.dropWhile Char.isDigit
  let fracDs :=
    match rest1 with
    | '.' :: r => r.takeWhile Char.isDigit
    | _ => []
  let rest2 :=
    match rest1 with
    | '.' :: r => r.dropWhile Char.isDigit
    | _ => rest1
  if intDs = [] ∧ fracDs = [] then none
  else
    let mantissa : Rat :=
      (decDigitsNat intDs : Rat) + (decDigitsNat fracDs : Rat) / ((10 : Rat) ^ fracDs.length)
    let withExp : Bool → List Char → Option Rat := fun negExp ds =>
      if ds ≠ [] ∧ ds.all Char.isDigit then
        some (if negExp then mantissa / (10 : Rat) ^ decDigitsNat ds
              else mantissa * (10 : Rat) ^ decDigitsNat ds)
      else none
    match rest2 with
    | [] => some mantissa
    | c :: r =>
      if c = 'e' ∨ c = 'E' then
        match r with
        | '+' :: ds => withExp false ds
        | '-' :: ds => withExp true ds
        | ds => withExp false ds
      else none

/-- Python `float(str)`: surrounding whitespace, optional sign, unsigned
float literal. -/
def pyFloat? (s : String) : Option Rat :=
  match pyStripChars s.data with
  | '+' :: rest => pyUnsignedFloat? rest
  | '-' :: rest => (pyUnsignedFloat? rest).map Neg.neg
  | cs => pyUnsignedFloat? cs

/-- The two text components of Python `str.partition(";")` used by `_odiff`. -/
def pyPartition (s : String) : String × String :=
  let p := chSplitFirst ';' s.data
  (⟨p.1⟩, ⟨p.2⟩)

/-- Python `str.capitalize()`: first character upper case, rest lower case. -/
def pyCapitalize (s : String) : String :=
  match s.data with
  | [] => ""
  | c :: rest => ⟨c.toUpper :: rest.map Char.toLower⟩

/-- Python `str.replace("_", " ")`. -/
def underscoreToSpace (s : String) : String :=
  ⟨s.data.map fun c => if c = '_' then ' ' else c⟩

/-- Python `f"{x}"` for `x : int | None`. -/
def pyReprOptInt : Option Int → String
  | none => "None"
  | some n => toString n

/-- Python `f"{x}"` for a list of ints, e.g. `"[13, 14]"`. -/
def pyReprIntList (l : List Int) : String :=
  "[" ++ String.intercalate ", " (l.map toString) ++ "]"

/-- Python `int()` applied to a rational: truncation toward zero. -/
def pyTruncToInt (q : Rat) : Int := q.num.tdiv (q.den : Int)

/-- Round a rational to the nearest integer, ties to even. -/
def roundHalfEven (q : Rat) : Int :=
  let f := q.floor
  let frac := q - (f : Rat)
  if frac < 1 / 2 then f
  else if 1 / 2 < frac then f + 1
  else if f % 2 = 0 then f else f + 1

/-- Python `f"{x:.2f}"`, idealized on rationals (round half to even at the
second decimal). -/
def format2f (q : Rat) : String :=
  let n := roundHalfEven (q * 100)
  let sign := if n < 0 then "-" else ""
  let m := if n < 0 then (-n).toNat else n.toNat
  let r := m % 100
  sign ++ toString (m / 100) ++ "." ++ (if r < 10 then "0" ++ toString r else toString r)

/-! ## Image model (PIL `Image.Image`, `ImageDraw`) -/

/-- A pixel value: red, green, blue, alpha. -/
structure RGBA where
  r : Nat
  g : Nat
  b : Nat
  a : Nat
deriving DecidableEq, Repr

/-- A color as returned by `PIL.ImageColor.getrgb` on a plain color name. -/
structure RGB where
  r : Nat
  g : Nat
  b : Nat
deriving DecidableEq, Repr

/-- The value of `getrgb("red")`, the default overlay color. -/
def redRGB : RGB := ⟨255, 0, 0⟩

/-- A PIL image: a size and a total pixel map (only the values at
`0 ≤ x < width`, `0 ≤ y < height` are meaningful). -/
structure PImage where
  width : Nat
  height : Nat
  pix : Int → Int → RGBA

/-- Fully transparent black, the background of `Image.new("RGBA", size, (0,0,0,0))`. -/
def transparentRGBA : RGBA := ⟨0, 0, 0, 0⟩

/-- A blank image of the given size. -/
def PImage.blank (w h : Nat) : PImage := ⟨w, h, fun _ _ => transparentRGBA⟩

/-- Channel blend of `Image.paste(src, box, mask)` with mask alpha `a`
(PIL's fixed-point rounding idealized by truncating division; no claim
depends on the rounding, both sides of every equation use this function). -/
def blendChannel (dst src a : Nat) : Nat :=
  (src * a + dst * (255 - a)) / 255

/-- Pixel blend of an RGBA paste through its own alpha band as mask. -/
def blendPix (dst src : RGBA) : RGBA :=
  ⟨blendChannel dst.r src.r src.a,
   blendChannel dst.g src.g src.a,
   blendChannel dst.b src.b src.a,
   blendChannel dst.a src.a src.a⟩

/-- PIL `dst.paste(src, (ox, oy), src)`: paste `src` at offset `(ox, oy)`
using the alpha band of `src` as the mask; pixels outside the pasted
region keep the destination value.  Returns the composited image (the
wrapper always pastes onto `copy(attr)`, never onto a stored image). -/
def pasteMask (dst src : PImage) (ox oy : Int) : PImage :=
  { dst with
    pix := fun x y =>
      if ox ≤ x ∧ x < ox + src.width ∧ oy ≤ y ∧ y < oy + src.height then
        blendPix (dst.pix x y) (src.pix (x - ox) (y - oy))
      else dst.pix x y }

/-! ## IgnoreArea and the overlay renderer (`wrapper.py`) -/

/-- Container for odiff ignore area definitions (`IgnoreArea` NamedTuple). -/
structure IgnoreArea where
  x1 : Int
  y1 : Int
  x2 : Int
  y2 : Int
deriving DecidableEq, Repr

/-- Format to the odiff CLI argument `"x1:y1-x2:y2"`. -/
def IgnoreArea.to_region_str (a : IgnoreArea) : String :=
  toString a.x1 ++ ":" ++ toString a.y1 ++ "-" ++ toString a.x2 ++ ":" ++ toString a.y2

/-- Membership of pixel `(x, y)` in the (inclusive) rectangle of an area,
as drawn by `ImageDraw.rectangle`. -/
def IgnoreArea.containsPix (a : IgnoreArea) (x y : Int) : Bool :=
  a.x1 ≤ x && x ≤ a.x2 && a.y1 ≤ y && y ≤ a.y2

/-- Membership in the 2 pixel outline band that `ImageDraw.rectangle`
draws inward from the rectangle bounds for `width=2`. -/
def IgnoreArea.onBorder (a : IgnoreArea) (x y : Int) : Bool :=
  a.containsPix x y && (x < a.x1 + 2 || a.x2 - 2 < x || y < a.y1 + 2 || a.y2 - 2 < y)

/-- PIL `draw.rectangle(area, fill=fillC, outline=outlineC, width=2)`:
outline band painted in the outline color, interior painted in the fill
color when a fill color is given, all other pixels kept. -/
def drawRect (fillC : Option RGBA) (outlineC : RGBA) (a : IgnoreArea) (img : PImage) : PImage :=
  { img with
    pix := fun x y =>
      if a.onBorder x y then outlineC
      else if a.containsPix x y then
        match fillC with
        | some c => c
        | none => img.pix x y
      else img.pix x y }

/-- The fill color used by `create_ignore_areas_overlay`:
the border color with alpha `int(255 * fill)`. -/
def overlayFillColor (color : RGB) (fill : Rat) : RGBA :=
  ⟨color.r, color.g, color.b, (pyTruncToInt (255 * fill)).toNat⟩

/-- The opaque outline color (a 3-tuple color drawn on an RGBA image gets
alpha 255). -/
def overlayOutlineColor (color : RGB) : RGBA := ⟨color.r, color.g, color.b, 255⟩

/-- The drawing loop of `create_ignore_areas_overlay`: every area's
rectangle drawn in reversed list order onto a fresh transparent canvas of
the original image's size, filled only when `fill != 0`. -/
def overlayImageOf (original_image : PImage) (ignore_areas : List IgnoreArea)
    (color : RGB) (fill : Rat) : PImage :=
  ignore_areas.reverse.foldl
    (fun im a =>
      drawRect (if fill ≠ 0 then some (overlayFillColor color fill) else none)
        (overlayOutlineColor color) a im)
    (PImage.blank original_image.width original_image.height)

/-- Transparent overlay showing the ignore areas
(`create_ignore_areas_overlay` in `wrapper.py`): `None` for an empty area
list, otherwise the drawn overlay. -/
def create_ignore_areas_overlay (original_image : PImage) (ignore_areas : List IgnoreArea)
    (color : RGB) (fill : Rat) : Option PImage :=
  if ignore_areas.length = 0 then none
  else some (overlayImageOf original_image ignore_areas color fill)

/-- Specification of a single overlay pixel over a background value `bg`:
the first area in declaration order that paints the pixel wins (outline
band in the outline color, then, when a fill color is in use, the
interior in the fill color); pixels no area paints keep `bg`. -/
def overlayPixOn (fillC : Option RGBA) (outlineC : RGBA) :
    List IgnoreArea → RGBA → Int → Int → RGBA
  | [], bg, _, _ => bg
  | a :: rest, bg, x, y =>
    if a.onBorder x y then outlineC
    else if a.containsPix x y ∧ fillC.isSome then fillC.getD transparentRGBA
    else overlayPixOn fillC outlineC rest bg x y

/-! ## CompareStatus and the stdout parser (`_odiff`) -/

/-- Odiff comparison status result (`CompareStatus` enum). -/
inductive CompareStatus where
  | IMAGE_MATCH
  | LAYOUT_DIFFERENCE
  | PIXEL_DIFFERENCE
deriving DecidableEq, Repr

/-- The process exit code each enum member is bound to. -/
def CompareStatus.toCode : CompareStatus → Int
  | .IMAGE_MATCH => 0
  | .LAYOUT_DIFFERENCE => 21
  | .PIXEL_DIFFERENCE => 22

/-- The `name` attribute of each enum member. -/
def CompareStatus.pyName : CompareStatus → String
  | .IMAGE_MATCH => "IMAGE_MATCH"
  | .LAYOUT_DIFFERENCE => "LAYOUT_DIFFERENCE"
  | .PIXEL_DIFFERENCE => "PIXEL_DIFFERENCE"

/-- Membership test `returncode in CompareStatus._value2member_map_`
combined with the `CompareStatus(returncode)` lookup. -/
def CompareStatus.fromCode? (code : Int) : Option CompareStatus :=
  if code = 0 then some .IMAGE_MATCH
  else if code = 21 then some .LAYOUT_DIFFERENCE
  else if code = 22 then some .PIXEL_DIFFERENCE
  else none

/-- The three stdout fields `_odiff` builds its result from. -/
structure ParsedStdout where
  diff_pixel_count : Option Int
  diff_percentage : Option Rat
  diff_lines : List Int
deriving DecidableEq, Repr

/-- An optional numeric field of the stdout protocol:
`parse(s) if s != "" else None`, where a failing `parse` propagates. -/
def optNumField (parse : String → Option α) (s : String) : Option (Option α) :=
  if s = "" then some none else (parse s).map some

/-- The diff-lines list comprehension
`[int(line_nr) for line_nr in diff_lines.split(",") if line_nr.rstrip() != ""]`;
`none` models the `ValueError` a non-numeric entry raises. -/
def parseDiffLinesGo : List (List Char) → Option (List Int)
  | [] => some []
  | e :: rest =>
    if chRStrip e ≠ [] then
      match pyIntChars? e with
      | none => none
      | some n => (parseDiffLinesGo rest).map fun t => n :: t
    else parseDiffLinesGo rest

/-- Parse the comma separated diff-lines field. -/
def parseDiffLines (s : String) : Option (List Int) :=
  parseDiffLinesGo (chSplit ',' s.data)

/-- First semicolon field of stdout (the pixel count text). -/
def fieldCnt (stdout : String) : String := (pyPartition stdout).1

/-- Second semicolon field of stdout (the percentage text). -/
def fieldPct (stdout : String) : String := (pyPartition (pyPartition stdout).2).1

/-- Remainder after the second semicolon (the diff-lines text). -/
def fieldLns (stdout : String) : String := (pyPartition (pyPartition stdout).2).2

/-- The stdout protocol parser embedded in `_odiff` (lines 297-307 of
`wrapper.py`): two `partition(";")` splits, optional `int` / `float`
fields, comma separated diff line numbers; `none` models a propagating
`ValueError`. -/
def parseStdout (stdout : String) : Option ParsedStdout :=
  match optNumField pyInt? (fieldCnt stdout),
        optNumField pyFloat? (fieldPct stdout),
        parseDiffLines (fieldLns stdout) with
  | some c, some p, some l => some ⟨c, p, l⟩
  | _, _, _ => none

/-! ## DiffResult (`wrapper.py`) -/

/-- Result container for the odiff comparison (`DiffResult` dataclass).
The two presentation flags are the only fields toggled after
construction; a toggle is modelled as a record update. -/
structure DiffResult where
  base_image : PImage
  comparing_image : PImage
  diff_image : Option PImage
  status : CompareStatus
  diff_pixel_count : Option Int
  diff_percentage : Option Rat
  diff_lines : List Int
  ignore_areas : List IgnoreArea
  use_checker_transparency : Bool := true
  show_ignore_areas_overlay : Bool := true

/-- The three image attributes `DiffResult.__getattribute__` intercepts. -/
inductive ImgField where
  | base
  | comparing
  | diff
deriving DecidableEq, Repr

/-- The stored (dataclass) value of an image attribute, before the
`__getattribute__` interception. -/
def DiffResult.storedImage (r : DiffResult) : ImgField → Option PImage
  | .base => some r.base_image
  | .comparing => some r.comparing_image
  | .diff => r.diff_image

/-- The guard of the interception:
`len(self.ignore_areas) != 0 and self.show_ignore_areas_overlay is True`. -/
def DiffResult.overlayGuard (r : DiffResult) : Prop :=
  r.ignore_areas.length ≠ 0 ∧ r.show_ignore_areas_overlay = true

instance (r : DiffResult) : Decidable r.overlayGuard := by
  unfold DiffResult.overlayGuard; infer_instance

/-- Reading `self.base_image`: under the guard, the default overlay
(color `"red"`, fill `0.2`) is pasted at `(0, 0)` onto a copy of the
stored base image (the `none` overlay branch is the dead branch guarded
by the `assert` in the source). -/
def DiffResult.readBase (r : DiffResult) : PImage :=
  if r.overlayGuard then
    match create_ignore_areas_overlay r.base_image r.ignore_areas redRGB (1 / 5) with
    | some ov => pasteMask r.base_image ov 0 0
    | none => r.base_image
  else r.base_image

/-- Reading one of the three image attributes
(`DiffResult.__getattribute__`).  For the non-base attributes the source
recomputes the overlay from `self.base_image` — itself an intercepted,
already composited read — and pastes it at `(0, 0)` onto a copy of the
stored attribute; a `None` diff image fails the `isinstance` check and is
returned unmodified. -/
def DiffResult.readImage (r : DiffResult) : ImgField → Option PImage
  | .base => some r.readBase
  | .comparing =>
    if r.overlayGuard then
      match create_ignore_areas_overlay r.readBase r.ignore_areas redRGB (1 / 5) with
      | some ov => some (pasteMask r.comparing_image ov 0 0)
      | none => some r.comparing_image
    else some r.comparing_image
  | .diff =>
    match r.diff_image with
    | none => none
    | some d =>
      if r.overlayGuard then
        match create_ignore_areas_overlay r.readBase r.ignore_areas redRGB (1 / 5) with
        | some ov => some (pasteMask d ov 0 0)
        | none => some d
      else some d

/-- The checkerboard-transparency CSS constant of `utils.py`
(`" ".join(...splitlines())`, hence the leading space and single-space
line joins). -/
def CHECKER_TRANSPARENCY_CSS : String :=
  " background: -webkit-linear-gradient(45deg, rgba(0, 0, 0, 0.0980392) 25%, transparent 25%, transparent 75%, rgba(0, 0, 0, 0.0980392) 75%, rgba(0, 0, 0, 0.0980392) 0), -webkit-linear-gradient(45deg, rgba(0, 0, 0, 0.0980392) 25%, transparent 25%, transparent 75%, rgba(0, 0, 0, 0.0980392) 75%, rgba(0, 0, 0, 0.0980392) 0), white; background: -moz-linear-gradient(45deg, rgba(0, 0, 0, 0.0980392) 25%, transparent 25%, transparent 75%, rgba(0, 0, 0, 0.0980392) 75%, rgba(0, 0, 0, 0.0980392) 0), -moz-linear-gradient(45deg, rgba(0, 0, 0, 0.0980392) 25%, transparent 25%, transparent 75%, rgba(0, 0, 0, 0.0980392) 75%, rgba(0, 0, 0, 0.0980392) 0), white; background: linear-gradient(45deg, rgba(0, 0, 0, 0.0980392) 25%, transparent 25%, transparent 75%, rgba(0, 0, 0, 0.0980392) 75%, rgba(0, 0, 0, 0.0980392) 0), linear-gradient(45deg, rgba(0, 0, 0, 0.0980392) 25%, transparent 25%, transparent 75%, rgba(0, 0, 0, 0.0980392) 75%, rgba(0, 0, 0, 0.0980392) 0), white; background-repeat: repeat, repeat; background-position: 0px 0, 5px 5px; -webkit-transform-origin: 0 0 0; transform-origin: 0 0 0; -webkit-background-origin: padding-box, padding-box; background-origin: padding-box, padding-box; -webkit-background-clip: border-box, border-box; background-clip: border-box, border-box; -webkit-background-size: 10px 10px, 10px 10px; background-size: 10px 10px, 10px 10px; -webkit-box-shadow: none; box-shadow: none; text-shadow: none; -webkit-transition: none; -moz-transition: none; -o-transition: none; transition: none; -webkit-transform: scaleX(1) scaleY(1) scaleZ(1); transform: scaleX(1) scaleY(1) scaleZ(1);"

/-! ## APNG composition (`utils.py`) -/

/-- The modelled content of the byte buffer the external `apngasm`
assembler produces: the exact sequence of frames fed to
`add_frame_from_pillow`, each with its delay numerator and denominator.
Equal frame sequences yield equal buffers; the byte encoding itself lives
in the external library and is kept abstract. -/
structure APNGData where
  frames : List (PImage × Nat × Nat)

/-- The `png_images_to_apng_bytes` loop of `utils.py`: every `None`
entry is skipped, every present image is added as one frame with the
given delays, in order. -/
def png_images_to_apng_bytes (images : List (Option PImage))
    (delay_num delay_den : Nat) : APNGData :=
  ⟨images.foldl
    (fun acc oim =>
      match oim with
      | some im => acc ++ [(im, delay_num, delay_den)]
      | none => acc)
    []⟩

/-- APNG wrapper class (`APNG` dataclass of `utils.py`). -/
structure APNG where
  data : APNGData
  use_checker_transparency : Bool := true

/-- Modelled from the spec: the `overlay_image` parameter of
`APNG.from_images` is missing from the `src/` snapshot of `utils.py`,
although `DiffResult.create_apng` and the repository tests pass it.  Per
spec section 4.4, a supplied overlay image is composited onto a copy of
each non-absent frame before encoding (never mutating the caller's
image); with no overlay the frames are encoded as given. -/
def applyOverlayFrame (overlay_image : Option PImage) (oim : Option PImage) : Option PImage :=
  match oim, overlay_image with
  | some im, some ov => some (pasteMask im ov 0 0)
  | _, _ => oim

/-- Modelled from the spec (see `applyOverlayFrame`): `APNG.from_images`
hands the frames, each with the overlay composited when one is supplied,
to the assembler loop. -/
def APNG.from_images (images : List (Option PImage)) (overlay_image : Option PImage)
    (delay_num delay_den : Nat) : APNG :=
  { data :=
      png_images_to_apng_bytes (images.map (applyOverlayFrame overlay_image))
        delay_num delay_den,
    use_checker_transparency := true }

/-- The HTML string `APNG.__str__` renders: the checkerboard CSS is
included exactly when the flag is set, and the data bytes are embedded
base64 encoded (the base64 text of the abstract buffer is the
parameter `b64`). -/
def APNG.toHtml (b64 : APNGData → String) (a : APNG) : String :=
  "<img style=\"border: 1px solid; "
    ++ (if a.use_checker_transparency = true then CHECKER_TRANSPARENCY_CSS else "")
    ++ "\" src=\"data:image/apng;base64," ++ b64 a.data ++ "\">"

/-! ## DiffResult presentation (`wrapper.py`) -/

/-- The `DiffResult.create_ignore_areas_overlay` method: the overlay of
the `base_image` attribute — an intercepted, possibly composited read —
and the stored ignore areas. -/
def DiffResult.create_ignore_areas_overlay (r : DiffResult) (color : RGB) (fill : Rat) :
    Option PImage :=
  OdiffPy.create_ignore_areas_overlay r.readBase r.ignore_areas color fill

/-- The `DiffResult.create_apng` method: the three (intercepted) image
attributes become the frame list, and the ignore-area overlay in the
caller's color and fill is supplied exactly when the overlay-visibility
flag is set. -/
def DiffResult.create_apng (r : DiffResult) (delay_num delay_den : Nat)
    (color : RGB) (fill : Rat) : APNG :=
  APNG.from_images [r.readImage .base, r.readImage .comparing, r.readImage .diff]
    (if r.show_ignore_areas_overlay = true then r.create_ignore_areas_overlay color fill
     else none)
    delay_num delay_den

/-- The status cell of the summary table:
`self.status.name.replace('_', ' ').capitalize()`. -/
def statusCell (st : CompareStatus) : String :=
  pyCapitalize (underscoreToSpace st.pyName)

/-- The `DiffResult._repr_markdown_` method.  `.error ()` models the
`TypeError` that the `f"{self.diff_percentage:.2f}"` format raises when
the percentage is `None`; otherwise the summary table is built, the
diff-lines row is appended only for a non-empty list, and the APNG —
built by `create_apng()` with its default arguments and retagged with
the result's checkerboard flag — is embedded after a `<br>`. -/
def DiffResult.reprMarkdown (b64 : APNGData → String) (r : DiffResult) :
    Except Unit String :=
  if r.status = CompareStatus.IMAGE_MATCH then .ok "Images are identical."
  else
    match r.diff_percentage with
    | none => .error ()
    | some q =>
      let result_lines :=
        ["|Meaning|Value|",
         "|-------|-----|",
         "|Status|" ++ statusCell r.status ++ "|",
         "|Diff Pixel Count|" ++ pyReprOptInt r.diff_pixel_count ++ "|",
         "|Diff Percentage|" ++ format2f q ++ "%|"]
      let result_lines :=
        if r.diff_lines.length > 0 then
          result_lines ++ ["|Diff Lines|" ++ pyReprIntList r.diff_lines ++ "|"]
        else result_lines
      let apng := r.create_apng 500 1000 redRGB (1 / 5)
      let apng := { apng with use_checker_transparency := r.use_checker_transparency }
      .ok (String.intercalate "\n"
        (result_lines ++ ["\n<br>" ++ APNG.toHtml b64 apng ++ "\n"]))

/-! ## CLI argument marshaling and exit code classification (`_odiff`) -/

/-- The fully resolved option set of one `_odiff` invocation.  The
`diff_color` and `threshold_str` fields carry the interpolated text of
the corresponding f-string pieces (the threshold float's decimal
rendering is Python's float repr, immaterial to argument ordering), and
the three path fields carry the already resolved posix path texts. -/
structure OdiffOptions where
  antialiasing : Bool
  diff_color : String
  diff_mask : Bool
  fail_on_layout : Bool
  ignore_areas : List IgnoreArea
  output_diff_lines : Bool
  reduce_ram_usage : Bool
  threshold_str : String
  base_path : String
  comparing_path : String
  diff_path : String

/-- The `cli_args` list `_odiff` builds, append by append (lines 257-291
of `wrapper.py`). -/
def buildCliArgs (o : OdiffOptions) : List String :=
  let cli_args := ["--parsable-stdout"]
  let cli_args := if o.antialiasing = true then cli_args ++ ["--antialiasing"] else cli_args
  let cli_args := cli_args ++ ["--diff-color=" ++ o.diff_color]
  let cli_args := if o.diff_mask = true then cli_args ++ ["--diff-mask"] else cli_args
  let cli_args := if o.fail_on_layout = true then cli_args ++ ["--fail-on-layout"] else cli_args
  let cli_args :=
    if o.ignore_areas.length > 0 then
      cli_args ++
        ["--ignore=" ++ String.intercalate "," (o.ignore_areas.map IgnoreArea.to_region_str)]
    else cli_args
  let cli_args :=
    if o.output_diff_lines = true then cli_args ++ ["--output-diff-lines"] else cli_args
  let cli_args :=
    if o.reduce_ram_usage = true then cli_args ++ ["--reduce-ram-usage"] else cli_args
  let cli_args := cli_args ++ ["--threshold=" ++ o.threshold_str]
  cli_args ++ [o.base_path, o.comparing_path, o.diff_path]

/-- The two ways `_odiff` can fail after the subprocess returned. -/
inductive OdiffError where
  | runtimeError (msg : String)
  | conversionError
deriving DecidableEq, Repr

/-- The post-processing tail of `_odiff` (lines 293-309 of `wrapper.py`):
an unrecognized exit code raises
`RuntimeError(f"Error calling odiff executable:\n{stderr}")` before any
parsing; otherwise stdout is parsed (a failing conversion raises) and the
`DiffResult` is assembled from the loaded images, the classified status,
the parsed fields and the normalized ignore areas. -/
def odiffPost (returncode : Int) (stdout stderr : String)
    (baseImg compImg : PImage) (diffImg : Option PImage)
    (ignore_areas : List IgnoreArea) : Except OdiffError DiffResult :=
  match CompareStatus.fromCode? returncode with
  | none => .error (.runtimeError ("Error calling odiff executable:\n" ++ stderr))
  | some st =>
    match parseStdout stdout with
    | none => .error .conversionError
    | some p =>
      .ok { base_image := baseImg
            comparing_image := compImg
            diff_image := diffImg
            status := st
            diff_pixel_count := p.diff_pixel_count
            diff_percentage := p.diff_percentage
            diff_lines := p.diff_lines
            ignore_areas := ignore_areas }

/-! ## Concrete sample instances -/

/-- A 4 by 4 base image. -/
def sampleBase : PImage := PImage.blank 4 4

/-- A comparing image whose dimensions differ from the base image's. -/
def sampleComparing : PImage := PImage.blank 3 2

/-- A sample ignore area. -/
def sampleArea : IgnoreArea := ⟨0, 0, 3, 3⟩

/-- The drawn overlay of the sample base image and area. -/
def sampleOverlayImage : PImage := overlayImageOf sampleBase [sampleArea] redRGB (1 / 5)

/-- A pixel-difference result with one ignore area (both presentation
flags at their `true` defaults). -/
def pixelDiffSample : DiffResult :=
  { base_image := sampleBase
    comparing_image := sampleComparing
    diff_image := some (PImage.blank 4 4)
    status := .PIXEL_DIFFERENCE
    diff_pixel_count := some 7789
    diff_percentage := some ((1167766 : Rat) / 1000000)
    diff_lines := [13, 14]
    ignore_areas := [sampleArea] }

/-- A layout-difference result: absent pixel count and percentage. -/
def layoutDiffSample : DiffResult :=
  { base_image := PImage.blank 2 2
    comparing_image := PImage.blank 3 1
    diff_image := none
    status := .LAYOUT_DIFFERENCE
    diff_pixel_count := none
    diff_percentage := none
    diff_lines := []
    ignore_areas := [] }

/-! ## Helper lemmas -/

theorem fromCode_cases (rc : Int) (h : rc = 0 ∨ rc = 21 ∨ rc = 22) :
    CompareStatus.fromCode? rc = some (if rc = 0 then .IMAGE_MATCH
      else if rc = 21 then .LAYOUT_DIFFERENCE else .PIXEL_DIFFERENCE) := by
  rcases h with h | h | h <;> subst h <;> rfl

theorem fromCode_toCode (rc : Int) (st : CompareStatus)
    (h : CompareStatus.fromCode? rc = some st) : st.toCode = rc := by
  unfold CompareStatus.fromCode? at h
  split_ifs at h <;> simp_all <;> subst h <;> simp_all [CompareStatus.toCode]

theorem fromCode_none (rc : Int) (h : ¬(rc = 0 ∨ rc = 21 ∨ rc = 22)) :
    CompareStatus.fromCode? rc = none := by
  push_neg at h
  simp [CompareStatus.fromCode?, h.1, h.2.1, h.2.2]

theorem chSplitFirst_not_mem (sep : Char) (cs : List Char) (h : sep ∉ cs) :
    chSplitFirst sep cs = (cs, []) := by
  induction cs with
  | nil => rfl
  | cons c rest ih =>
    simp only [List.mem_cons, not_or] at h
    have hc : ¬c = sep := fun he => h.1 he.symm
    simp [chSplitFirst, hc, ih h.2]

theorem chSplitFirst_append (sep : Char) (cs : List Char) (h : sep ∈ cs) :
    (chSplitFirst sep cs).1 ++ sep :: (chSplitFirst sep cs).2 = cs := by
  induction cs with
  | nil => cases h
  | cons c rest ih =>
    by_cases hc : c = sep
    · subst hc; simp [chSplitFirst]
    · have hmem : sep ∈ rest := by
        rcases List.mem_cons.mp h with h1 | h1
        · exact absurd h1.symm hc
        · exact h1
      simp [chSplitFirst, hc, ih hmem]

theorem chSplitFirst_fst_not_mem (sep : Char) (cs : List Char) :
    sep ∉ (chSplitFirst sep cs).1 := by
  induction cs with
  | nil => simp [chSplitFirst]
  | cons c rest ih =>
    by_cases hc : c = sep
    · subst hc; simp [chSplitFirst]
    · simp only [chSplitFirst, if_neg hc, List.mem_cons, not_or]
      exact ⟨fun h => hc h.symm, ih⟩

theorem parseDiffLinesGo_none (l : List (List Char)) (e : List Char)
    (hmem : e ∈ l) (hne : chRStrip e ≠ []) (hbad : pyIntChars? e = none) :
    parseDiffLinesGo l = none := by
  induction l with
  | nil => cases hmem
  | cons h t ih =>
    rcases List.mem_cons.mp hmem with rfl | hm
    · simp [parseDiffLinesGo, hne, hbad]
    · unfold parseDiffLinesGo
      by_cases hh : chRStrip h ≠ []
      · simp only [if_pos hh]
        cases pyIntChars? h <;> simp [ih hm]
      · simp [hh, ih hm]

theorem optNumField_empty (parse : String → Option α) :
    optNumField parse "" = some none := rfl

theorem optNumField_nonempty (parse : String → Option α) (s : String) (h : s ≠ "") :
    optNumField parse s = (parse s).map some := by
  simp [optNumField, h]

/-! ## Claim theorems -/

/-- C1: for every invocation of the comparison façade, an exit code of 0,
21 or 22 never raises the execution error and classifies the returned
`DiffResult`'s status as the member bound to that exit code (and whenever
stdout parses, a `DiffResult` is indeed returned); any other exit code
raises the execution error whose message is the fixed prefix followed by
the captured stderr text unmodified. -/
theorem exit_code_classification (rc : Int) (out err : String)
    (b c : PImage) (d : Option PImage) (areas : List IgnoreArea) :
    ((rc = 0 ∨ rc = 21 ∨ rc = 22) →
      (∀ msg, odiffPost rc out err b c d areas ≠ .error (.runtimeError msg)) ∧
      (∀ r, odiffPost rc out err b c d areas = .ok r → r.status.toCode = rc) ∧
      (∀ p, parseStdout out = some p →
        ∃ r, odiffPost rc out err b c d areas = .ok r ∧ r.status.toCode = rc))
    ∧ (¬(rc = 0 ∨ rc = 21 ∨ rc = 22) →
      odiffPost rc out err b c d areas =
        .error (.runtimeError ("Error calling odiff executable:\n" ++ err))) := by
  constructor
  · intro h
    have hc := fromCode_cases rc h
    refine ⟨?_, ?_, ?_⟩
    · intro msg
      unfold odiffPost
      rw [hc]
      cases parseStdout out <;> simp
    · intro r hr
      unfold odiffPost at hr
      rw [hc] at hr
      cases hp : parseStdout out <;> rw [hp] at hr <;> simp_all
      refine fromCode_toCode rc _ ?_
      rw [hc, ← hr]
    · intro p hp
      unfold odiffPost
      rw [hc, hp]
      exact ⟨_, rfl, fromCode_toCode rc _ hc⟩
  · intro h
    unfold odiffPost
    rw [fromCode_none rc h]

/-- Witness for C1: exit code 9 (unrecognized) yields exactly the
execution error carrying the stderr text. -/
theorem exit_code_classification_witness :
    odiffPost 9 "" "boom" (PImage.blank 1 1) (PImage.blank 1 1) none [] =
      .error (.runtimeError ("Error calling odiff executable:\n" ++ "boom")) :=
  (exit_code_classification 9 "" "boom" (PImage.blank 1 1) (PImage.blank 1 1) none []).2
    (by decide)

/-- C3 counterexample: with only `diff_mask` enabled, the boolean flag
`--diff-mask` appears at index 2, after the value flag
`--diff-color=#FF0000` at index 1 — the claimed order "parsable-output
flag, then all boolean flags, then all value flags, then the positional
paths" does not hold (the value flags `--diff-color` and `--threshold`
bracket the boolean flags). -/
theorem cli_args_order_counterexample :
    buildCliArgs
        ⟨false, "#FF0000", true, false, [], false, false, "0.1",
          "base.png", "comparing.png", "diff.png"⟩ =
      ["--parsable-stdout", "--diff-color=#FF0000", "--diff-mask", "--threshold=0.1",
        "base.png", "comparing.png", "diff.png"] ∧
    (buildCliArgs
        ⟨false, "#FF0000", true, false, [], false, false, "0.1",
          "base.png", "comparing.png", "diff.png"⟩)[1]? =
      some "--diff-color=#FF0000" ∧
    (buildCliArgs
        ⟨false, "#FF0000", true, false, [], false, false, "0.1",
          "base.png", "comparing.png", "diff.png"⟩)[2]? =
      some "--diff-mask" := by
  refine ⟨by decide, by decide, by decide⟩

/-- C3 (amended): the argument vector is built in a fixed order — the
parsable-output flag first, then the optional boolean flags and the value
flags interleaved in the source's fixed (alphabetical) flag order:
antialiasing, diff-color, diff-mask, fail-on-layout, ignore,
output-diff-lines, reduce-ram-usage, threshold — then the three
positional paths base, compare, diff. -/
theorem cli_args_fixed_order (o : OdiffOptions) :
    buildCliArgs o =
      ["--parsable-stdout"]
        ++ (if o.antialiasing = true then ["--antialiasing"] else [])
        ++ ["--diff-color=" ++ o.diff_color]
        ++ (if o.diff_mask = true then ["--diff-mask"] else [])
        ++ (if o.fail_on_layout = true then ["--fail-on-layout"] else [])
        ++ (if o.ignore_areas.length > 0 then
              ["--ignore=" ++
                String.intercalate "," (o.ignore_areas.map IgnoreArea.to_region_str)]
            else [])
        ++ (if o.output_diff_lines = true then ["--output-diff-lines"] else [])
        ++ (if o.reduce_ram_usage = true then ["--reduce-ram-usage"] else [])
        ++ ["--threshold=" ++ o.threshold_str]
        ++ [o.base_path, o.comparing_path, o.diff_path] := by
  unfold buildCliArgs
  split_ifs <;> simp

/-- C2: the stdout parser splits the text at the first two semicolons
into at most three fields (the splits reconstruct the text and the first
field has no semicolon); a parse that succeeds maps an empty pixel-count
field to an absent count, an empty percentage field to an absent
percentage, an empty or missing line-number field to the empty list, and
parses every non-empty numeric field as a number; a non-empty numeric
field that is not a numeric literal (for the count, the percentage, or
any non-blank comma entry of the line list) makes the whole parse fail
instead of returning a value. -/
theorem stdout_parse_spec (s : String) :
    ((';' ∈ s.data → (fieldCnt s).data ++ ';' :: ((pyPartition s).2).data = s.data) ∧
      ';' ∉ (fieldCnt s).data) ∧
    (∀ p, parseStdout s = some p →
      (fieldCnt s = "" → p.diff_pixel_count = none) ∧
      (fieldPct s = "" → p.diff_percentage = none) ∧
      (fieldLns s = "" → p.diff_lines = []) ∧
      (fieldCnt s ≠ "" → ∃ n, pyInt? (fieldCnt s) = some n ∧ p.diff_pixel_count = some n) ∧
      (fieldPct s ≠ "" → ∃ q, pyFloat? (fieldPct s) = some q ∧ p.diff_percentage = some q)) ∧
    (pyInt? (fieldCnt s) = none → fieldCnt s ≠ "" → parseStdout s = none) ∧
    (pyFloat? (fieldPct s) = none → fieldPct s ≠ "" → parseStdout s = none) ∧
    (∀ e, e ∈ chSplit ',' (fieldLns s).data → chRStrip e ≠ [] → pyIntChars? e = none →
      parseStdout s = none) := by
  refine ⟨⟨fun h => chSplitFirst_append ';' s.data h, chSplitFirst_fst_not_mem ';' s.data⟩,
    ?_, ?_, ?_, ?_⟩
  · intro p hp
    unfold parseStdout at hp
    rcases h1 : optNumField pyInt? (fieldCnt s) with _ | c <;> rw [h1] at hp
    · cases optNumField pyFloat? (fieldPct s) <;> cases parseDiffLines (fieldLns s) <;>
        simp at hp
    rcases h2 : optNumField pyFloat? (fieldPct s) with _ | pc <;> rw [h2] at hp
    · cases parseDiffLines (fieldLns s) <;> simp at hp
    rcases h3 : parseDiffLines (fieldLns s) with _ | l <;> rw [h3] at hp
    · simp at hp
    simp only [Option.some_inj] at hp
    subst hp
    refine ⟨?_, ?_, ?_, ?_, ?_⟩
    · intro he; rw [he, optNumField_empty] at h1; simpa using h1.symm
    · intro he; rw [he, optNumField_empty] at h2; simpa using h2.symm
    · intro he
      rw [he] at h3
      have : parseDiffLines "" = some [] := rfl
      rw [this] at h3
      simpa using h3.symm
    · intro he
      rw [optNumField_nonempty _ _ he] at h1
      rcases hv : pyInt? (fieldCnt s) with _ | n <;> rw [hv] at h1 <;> simp at h1
      exact ⟨n, rfl, h1.symm⟩
    · intro he
      rw [optNumField_nonempty _ _ he] at h2
      rcases hv : pyFloat? (fieldPct s) with _ | q <;> rw [hv] at h2 <;> simp at h2
      exact ⟨q, rfl, h2.symm⟩
  · intro hnone hne
    unfold parseStdout
    rw [optNumField_nonempty _ _ hne, hnone]
    cases optNumField pyFloat? (fieldPct s) <;> cases parseDiffLines (fieldLns s) <;> simp
  · intro hnone hne
    unfold parseStdout
    rw [optNumField_nonempty _ _ hne, hnone]
    cases optNumField pyInt? (fieldCnt s) <;> cases parseDiffLines (fieldLns s) <;> simp
  · intro e hmem hne hbad
    unfold parseStdout parseDiffLines
    rw [parseDiffLinesGo_none (chSplit ',' (fieldLns s).data) e hmem hne hbad]
    cases optNumField pyInt? (fieldCnt s) <;> cases optNumField pyFloat? (fieldPct s) <;> simp

/-- Witness for C2: the non-numeric pixel-count field `"abc"` makes the
parse fail. -/
theorem stdout_parse_spec_witness : parseStdout "abc" = none :=
  (stdout_parse_spec "abc").2.2.1 (by decide) (by decide)

/-- C4 counterexample: the stdout text `"5"` is accepted by the parser
and yields a present pixel count together with an absent percentage, so
the parser itself does not enforce "both present or both absent". -/
theorem count_without_percentage_counterexample :
    parseStdout "5" = some ⟨some 5, none, []⟩ := by decide

/-- C4 (amended): for every stdout string the parser accepts, the pixel
count is present exactly when the first semicolon field is non-empty and
the percentage is present exactly when the second semicolon field is
non-empty; the parser does not itself couple the two (they are coupled
only through the protocol, whose emitter writes both fields or neither),
so "both present or both absent" holds exactly for stdout whose first
two fields are both empty or both non-empty. -/
theorem parse_fields_presence (s : String) (p : ParsedStdout)
    (h : parseStdout s = some p) :
    (p.diff_pixel_count.isSome ↔ fieldCnt s ≠ "") ∧
    (p.diff_percentage.isSome ↔ fieldPct s ≠ "") := by
  unfold parseStdout at h
  rcases h1 : optNumField pyInt? (fieldCnt s) with _ | c <;> rw [h1] at h
  · cases optNumField pyFloat? (fieldPct s) <;> cases parseDiffLines (fieldLns s) <;>
      simp at h
  rcases h2 : optNumField pyFloat? (fieldPct s) with _ | pc <;> rw [h2] at h
  · cases parseDiffLines (fieldLns s) <;> simp at h
  rcases h3 : parseDiffLines (fieldLns s) with _ | l <;> rw [h3] at h
  · simp at h
  simp only [Option.some_inj] at h
  subst h
  constructor
  · by_cases he : fieldCnt s = ""
    · rw [he, optNumField_empty] at h1
      simp only [Option.some_inj] at h1
      subst h1; simp [he]
    · rw [optNumField_nonempty _ _ he] at h1
      rcases hv : pyInt? (fieldCnt s) with _ | n <;> rw [hv] at h1 <;> simp at h1
      subst h1; simp [he]
  · by_cases he : fieldPct s = ""
    · rw [he, optNumField_empty] at h2
      simp only [Option.some_inj] at h2
      subst h2; simp [he]
    · rw [optNumField_nonempty _ _ he] at h2
      rcases hv : pyFloat? (fieldPct s) with _ | q <;> rw [hv] at h2 <;> simp at h2
      subst h2; simp [he]

/-- Witness for C4 (amended): on the accepted stdout `"5"` the count is
present (non-empty first field) and the percentage absent (empty second
field). -/
theorem parse_fields_presence_witness :
    ((some (5 : Int)).isSome ↔ fieldCnt "5" ≠ "") ∧
    ((none : Option Rat).isSome ↔ fieldPct "5" ≠ "") :=
  parse_fields_presence "5" ⟨some 5, none, []⟩ (by decide)

theorem pngBytes_foldl (images : List (Option PImage)) (dn dd : Nat)
    (acc : List (PImage × Nat × Nat)) :
    images.foldl
        (fun acc oim =>
          match oim with
          | some im => acc ++ [(im, dn, dd)]
          | none => acc)
        acc
      = acc ++ (images.filterMap id).map (fun im => (im, dn, dd)) := by
  induction images generalizing acc with
  | nil => simp
  | cons h t ih =>
    cases h <;> simp [List.foldl_cons, ih, List.filterMap_cons]

theorem pngBytes_frames (images : List (Option PImage)) (dn dd : Nat) :
    (png_images_to_apng_bytes images dn dd).frames =
      (images.filterMap id).map (fun im => (im, dn, dd)) := by
  unfold png_images_to_apng_bytes
  simpa using pngBytes_foldl images dn dd []

theorem applyOverlayFrame_none (oim : Option PImage) :
    applyOverlayFrame none oim = oim := by
  cases oim <;> rfl

theorem filterMap_applyOverlay (ov : PImage) (l : List (Option PImage)) :
    (l.map (applyOverlayFrame (some ov))).filterMap id =
      (l.filterMap id).map (fun im => pasteMask im ov 0 0) := by
  induction l with
  | nil => rfl
  | cons h t ih =>
    cases h <;> simp [applyOverlayFrame, List.filterMap_cons, ih]

/-- C8: an absent entry in the frame sequence is skipped, so composing
`[A, None, B]` yields the same buffer as composing `[A, B]`, and in
general the buffer holds exactly one frame per present image, in order,
each with the given delay numerator and denominator. -/
theorem apng_frame_skipping (A B : PImage) (dn dd : Nat) :
    png_images_to_apng_bytes [some A, none, some B] dn dd =
      png_images_to_apng_bytes [some A, some B] dn dd ∧
    ∀ images : List (Option PImage),
      (png_images_to_apng_bytes images dn dd).frames =
        (images.filterMap id).map fun im => (im, dn, dd) :=
  ⟨rfl, fun images => pngBytes_frames images dn dd⟩

/-- C6: a supplied overlay image is composited (by `pasteMask`, onto a
value copy, leaving the caller's frame images untouched) onto each
non-absent frame before the frames are encoded, while no overlay leaves
the frames as given; and `DiffResult.create_apng` hands its three
(intercepted) image attributes to the APNG construction together with
the ignore-area overlay exactly when the overlay-visibility flag is
true, returning the resulting APNG. -/
theorem apng_overlay_compositing (images : List (Option PImage)) (ov : PImage)
    (dn dd : Nat) (r : DiffResult) (color : RGB) (fill : Rat)
    (hshow : r.show_ignore_areas_overlay = true) :
    (APNG.from_images images (some ov) dn dd).data.frames =
      (images.filterMap id).map (fun im => (pasteMask im ov 0 0, dn, dd)) ∧
    (APNG.from_images images none dn dd).data.frames =
      (images.filterMap id).map (fun im => (im, dn, dd)) ∧
    r.create_apng dn dd color fill =
      APNG.from_images [r.readImage .base, r.readImage .comparing, r.readImage .diff]
        (r.create_ignore_areas_overlay color fill) dn dd := by
  refine ⟨?_, ?_, ?_⟩
  · show (png_images_to_apng_bytes (images.map (applyOverlayFrame (some ov))) dn dd).frames = _
    rw [pngBytes_frames, filterMap_applyOverlay, List.map_map]
    rfl
  · show (png_images_to_apng_bytes (images.map (applyOverlayFrame none)) dn dd).frames = _
    rw [pngBytes_frames]
    have hfun : applyOverlayFrame none = id := funext applyOverlayFrame_none
    rw [hfun, List.map_id]
  · simp [DiffResult.create_apng, hshow]

/-- Witness for C6: the sample result (overlay flag `true`) has its APNG
built from its three intercepted images plus its overlay. -/
theorem apng_overlay_compositing_witness :
    pixelDiffSample.create_apng 500 1000 redRGB (1 / 5) =
      APNG.from_images
        [pixelDiffSample.readImage .base, pixelDiffSample.readImage .comparing,
          pixelDiffSample.readImage .diff]
        (pixelDiffSample.create_ignore_areas_overlay redRGB (1 / 5)) 500 1000 :=
  (apng_overlay_compositing [] (PImage.blank 1 1) 500 1000 pixelDiffSample redRGB (1 / 5)
    rfl).2.2

theorem create_overlay_eq_some (base : PImage) (areas : List IgnoreArea)
    (c : RGB) (f : Rat) (h : areas ≠ []) :
    create_ignore_areas_overlay base areas c f = some (overlayImageOf base areas c f) := by
  unfold create_ignore_areas_overlay
  rw [if_neg (by simpa [List.length_eq_zero] using h)]

theorem foldDraw_width (fc : Option RGBA) (oc : RGBA) (areas : List IgnoreArea)
    (start : PImage) :
    (areas.foldl (fun im a => drawRect fc oc a im) start).width = start.width := by
  induction areas generalizing start with
  | nil => rfl
  | cons a rest ih => simpa using ih (drawRect fc oc a start)

theorem foldDraw_height (fc : Option RGBA) (oc : RGBA) (areas : List IgnoreArea)
    (start : PImage) :
    (areas.foldl (fun im a => drawRect fc oc a im) start).height = start.height := by
  induction areas generalizing start with
  | nil => rfl
  | cons a rest ih => simpa using ih (drawRect fc oc a start)

theorem overlayImageOf_width (base : PImage) (areas : List IgnoreArea) (c : RGB) (f : Rat) :
    (overlayImageOf base areas c f).width = base.width := by
  unfold overlayImageOf
  rw [foldDraw_width]
  rfl

theorem overlayImageOf_height (base : PImage) (areas : List IgnoreArea) (c : RGB) (f : Rat) :
    (overlayImageOf base areas c f).height = base.height := by
  unfold overlayImageOf
  rw [foldDraw_height]
  rfl

theorem readBase_guard (r : DiffResult) (h : r.overlayGuard) :
    r.readBase =
      pasteMask r.base_image (overlayImageOf r.base_image r.ignore_areas redRGB (1 / 5)) 0 0 := by
  have hne : r.ignore_areas ≠ [] := fun he => h.1 (by simp [he])
  unfold DiffResult.readBase
  rw [if_pos h, create_overlay_eq_some _ _ _ _ hne]

theorem readBase_no_guard (r : DiffResult) (h : ¬r.overlayGuard) :
    r.readBase = r.base_image := by
  unfold DiffResult.readBase
  rw [if_neg h]

theorem overlayImageOf_readBase (r : DiffResult) (areas : List IgnoreArea)
    (c : RGB) (f : Rat) :
    overlayImageOf r.readBase areas c f = overlayImageOf r.base_image areas c f := by
  by_cases h : r.overlayGuard
  · rw [readBase_guard r h]
    exact rfl
  · rw [readBase_no_guard r h]

theorem overlay_readBase (r : DiffResult) (c : RGB) (f : Rat) :
    create_ignore_areas_overlay r.readBase r.ignore_areas c f =
      create_ignore_areas_overlay r.base_image r.ignore_areas c f := by
  unfold create_ignore_areas_overlay
  rw [overlayImageOf_readBase]

theorem readImage_guard (r : DiffResult) (h : r.overlayGuard) (f : ImgField) :
    r.readImage f = (r.storedImage f).map
      (fun im => pasteMask im (overlayImageOf r.base_image r.ignore_areas redRGB (1 / 5)) 0 0) := by
  have hne : r.ignore_areas ≠ [] := fun he => h.1 (by simp [he])
  cases f
  · show some r.readBase = _
    rw [readBase_guard r h]
    rfl
  · show (if r.overlayGuard then _ else _) = _
    rw [if_pos h, overlay_readBase, create_overlay_eq_some _ _ _ _ hne]
    rfl
  · show (match r.diff_image with | none => none | some d => _) = _
    cases hd : r.diff_image with
    | none => simp [DiffResult.storedImage, hd]
    | some d =>
      simp only [if_pos h, create_overlay_eq_some _ _ _ _ hne,
        overlayImageOf_readBase, DiffResult.storedImage, hd]
      rfl

theorem readImage_no_guard (r : DiffResult) (h : ¬r.overlayGuard) (f : ImgField) :
    r.readImage f = r.storedImage f := by
  cases f
  · show some r.readBase = _
    rw [readBase_no_guard r h]
    rfl
  · show (if r.overlayGuard then _ else _) = _
    rw [if_neg h]
    rfl
  · show (match r.diff_image with | none => none | some d => _) = _
    cases hd : r.diff_image with
    | none => simp [DiffResult.storedImage, hd]
    | some d => simp [DiffResult.storedImage, hd, if_neg h]

/-- C5: reading any of the three image attributes returns the
ignore-area overlay composited (by `pasteMask`, onto a value copy,
leaving the stored images untouched) exactly when the ignore-area list
is non-empty and the overlay-visibility flag is true, and the stored
image unmodified otherwise; the read is recomputed from the current flag
value, so flipping the flag on a constructed result switches subsequent
reads between the two forms, and has no effect at all when the
ignore-area list is empty. -/
theorem accessor_overlay_semantics (r : DiffResult) (f : ImgField) :
    (r.overlayGuard →
      r.readImage f = (r.storedImage f).map fun im =>
        pasteMask im (overlayImageOf r.base_image r.ignore_areas redRGB (1 / 5)) 0 0) ∧
    (¬r.overlayGuard → r.readImage f = r.storedImage f) ∧
    (({ r with show_ignore_areas_overlay := false } : DiffResult).readImage f =
      r.storedImage f) ∧
    (r.ignore_areas ≠ [] →
      ({ r with show_ignore_areas_overlay := true } : DiffResult).readImage f =
        (r.storedImage f).map fun im =>
          pasteMask im (overlayImageOf r.base_image r.ignore_areas redRGB (1 / 5)) 0 0) ∧
    (r.ignore_areas = [] → ∀ b,
      ({ r with show_ignore_areas_overlay := b } : DiffResult).readImage f =
        r.storedImage f) := by
  refine ⟨fun h => readImage_guard r h f, fun h => readImage_no_guard r h f, ?_, ?_, ?_⟩
  · exact readImage_no_guard _ (fun hg => by simpa using hg.2) f
  · intro hne
    exact readImage_guard _ ⟨by simpa [List.length_eq_zero] using hne, rfl⟩ f
  · intro he b
    exact readImage_no_guard _ (fun hg => hg.1 (by simp [he])) f

/-- Witness for C5: on the sample result (non-empty areas, flag true) the
comparing accessor returns the stored image with the overlay pasted. -/
theorem accessor_overlay_semantics_witness :
    pixelDiffSample.readImage .comparing =
      (pixelDiffSample.storedImage .comparing).map fun im =>
        pasteMask im
          (overlayImageOf pixelDiffSample.base_image pixelDiffSample.ignore_areas
            redRGB (1 / 5)) 0 0 :=
  (accessor_overlay_semantics pixelDiffSample .comparing).1 ⟨by decide, rfl⟩

/-- C10: under a non-empty ignore-area list and a true
overlay-visibility flag, every one of the three accessors composites the
same overlay — derived from the base image (whose width and height the
overlay has) with the default color red and the default fill fraction
1/5 — pasted at the origin `(0, 0)` of the accessed image; nothing
requires the comparing or diff image dimensions to equal the base
image's. -/
theorem overlay_uses_base_dimensions (r : DiffResult)
    (hne : r.ignore_areas ≠ []) (hshow : r.show_ignore_areas_overlay = true) :
    (∀ f im, r.storedImage f = some im →
      r.readImage f = some (pasteMask im
        (overlayImageOf r.base_image r.ignore_areas redRGB (1 / 5)) 0 0)) ∧
    (overlayImageOf r.base_image r.ignore_areas redRGB (1 / 5)).width =
      r.base_image.width ∧
    (overlayImageOf r.base_image r.ignore_areas redRGB (1 / 5)).height =
      r.base_image.height := by
  have hg : r.overlayGuard := ⟨by simpa [List.length_eq_zero] using hne, hshow⟩
  refine ⟨fun f im him => ?_, overlayImageOf_width _ _ _ _, overlayImageOf_height _ _ _ _⟩
  rw [readImage_guard r hg f, him]
  rfl

/-- Witness for C10: on the sample result the comparing accessor — whose
stored image is 3 by 2 while the base image is 4 by 4 — composites the
base-derived overlay at the origin. -/
theorem overlay_uses_base_dimensions_witness :
    pixelDiffSample.readImage .comparing = some (pasteMask sampleComparing
      (overlayImageOf pixelDiffSample.base_image pixelDiffSample.ignore_areas
        redRGB (1 / 5)) 0 0) :=
  (overlay_uses_base_dimensions pixelDiffSample (by decide) rfl).1 .comparing
    sampleComparing rfl

theorem drawRect_pix (fc : Option RGBA) (oc : RGBA) (a : IgnoreArea) (img : PImage)
    (x y : Int) :
    (drawRect fc oc a img).pix x y =
      if a.onBorder x y then oc
      else if a.containsPix x y then
        match fc with
        | some c => c
        | none => img.pix x y
      else img.pix x y := rfl

theorem foldDraw_pix (fc : Option RGBA) (oc : RGBA) (areas : List IgnoreArea)
    (start : PImage) (x y : Int) :
    (areas.reverse.foldl (fun im a => drawRect fc oc a im) start).pix x y =
      overlayPixOn fc oc areas (start.pix x y) x y := by
  induction areas with
  | nil => rfl
  | cons a rest ih =>
    rw [List.reverse_cons, List.foldl_append, List.foldl_cons, List.foldl_nil, drawRect_pix]
    unfold overlayPixOn
    by_cases hb : a.onBorder x y = true
    · rw [if_pos hb, if_pos hb]
    · rw [if_neg hb, if_neg hb]
      by_cases hcont : a.containsPix x y = true
      · cases fc with
        | none =>
          rw [if_pos hcont, if_neg fun h => by simpa using h.2]
          exact ih
        | some c =>
          rw [if_pos hcont, if_pos ⟨hcont, rfl⟩]
          rfl
      · rw [if_neg hcont, if_neg fun h => hcont h.1]
        exact ih

/-- C7: the overlay renderer returns no overlay exactly for the empty
area list; otherwise the overlay has the base image's width and height,
every pixel is given by `overlayPixOn` — the first area in declaration
order that paints the pixel wins (reverse drawing order makes the
first-declared area topmost), the 2 pixel border band gets the opaque
caller-chosen color, the interior gets the fill color with alpha
`int(255 * fill)` only when the fill fraction is non-zero (a fill of
exactly 0 paints the border only) — and pixels inside no area stay fully
transparent. -/
theorem overlay_renderer_spec (img : PImage) (areas : List IgnoreArea)
    (c : RGB) (f : Rat) :
    (create_ignore_areas_overlay img areas c f = none ↔ areas = []) ∧
    (∀ ov, create_ignore_areas_overlay img areas c f = some ov →
      ov.width = img.width ∧ ov.height = img.height ∧
      (∀ x y, ov.pix x y =
        overlayPixOn (if f ≠ 0 then some (overlayFillColor c f) else none)
          (overlayOutlineColor c) areas transparentRGBA x y) ∧
      (∀ x y, (∀ a ∈ areas, a.containsPix x y = false) →
        ov.pix x y = transparentRGBA)) := by
  constructor
  · unfold create_ignore_areas_overlay
    constructor
    · intro h
      by_cases hl : areas.length = 0
      · exact List.length_eq_zero.mp hl
      · rw [if_neg hl] at h
        cases h
    · intro h
      subst h
      rfl
  · intro ov hov
    have hne : areas ≠ [] := by
      intro he
      subst he
      cases hov
    rw [create_overlay_eq_some _ _ _ _ hne, Option.some_inj] at hov
    subst hov
    refine ⟨overlayImageOf_width _ _ _ _, overlayImageOf_height _ _ _ _, fun x y => ?_, ?_⟩
    · unfold overlayImageOf
      rw [foldDraw_pix]
      rfl
    · intro x y hout
      unfold overlayImageOf
      rw [foldDraw_pix]
      show overlayPixOn _ _ areas transparentRGBA x y = transparentRGBA
      clear hne
      induction areas with
      | nil => rfl
      | cons a rest ih =>
        have ha := hout a (List.mem_cons_self a rest)
        have hb : a.onBorder x y = false := by
          unfold IgnoreArea.onBorder
          rw [ha]
          rfl
        unfold overlayPixOn
        rw [hb, ha]
        simpa using ih fun b hb => hout b (List.mem_cons_of_mem a hb)

/-- Witness for C7: the sample overlay of the 4 by 4 base image has the
base image's width. -/
theorem overlay_renderer_spec_witness : sampleOverlayImage.width = sampleBase.width :=
  ((overlay_renderer_spec sampleBase [sampleArea] redRGB (1 / 5)).2
    sampleOverlayImage rfl).1

/-- C9 counterexample: on a layout-difference result — whose percentage
is absent — the renderer does not yield the claimed table: the
`f"{None:.2f}"` format raises a `TypeError` (modelled by `.error ()`)
instead of producing any string. -/
theorem repr_markdown_counterexample :
    DiffResult.reprMarkdown (fun _ => "") layoutDiffSample = .error () := rfl

/-- C9 (amended): rendering yields exactly `"Images are identical."` for
image-match status; for any other status it yields the
status/pixel-count/percentage table, with the diff-line row only for a
non-empty list, followed by the embedded animated-diff visualization
honoring the checkerboard flag — provided the percentage is present; a
non-match result with an absent percentage (layout difference) raises a
format error instead. -/
theorem repr_markdown_spec (b64 : APNGData → String) (r : DiffResult) :
    (r.status = CompareStatus.IMAGE_MATCH →
      DiffResult.reprMarkdown b64 r = .ok "Images are identical.") ∧
    (r.status ≠ CompareStatus.IMAGE_MATCH → r.diff_percentage = none →
      DiffResult.reprMarkdown b64 r = .error ()) ∧
    (∀ q, r.status ≠ CompareStatus.IMAGE_MATCH → r.diff_percentage = some q →
      DiffResult.reprMarkdown b64 r = .ok (String.intercalate "\n"
        ((["|Meaning|Value|",
           "|-------|-----|",
           "|Status|" ++ statusCell r.status ++ "|",
           "|Diff Pixel Count|" ++ pyReprOptInt r.diff_pixel_count ++ "|",
           "|Diff Percentage|" ++ format2f q ++ "%|"] ++
          (if r.diff_lines.length > 0 then
            ["|Diff Lines|" ++ pyReprIntList r.diff_lines ++ "|"]
           else [])) ++
         ["\n<br>" ++ APNG.toHtml b64
            { r.create_apng 500 1000 redRGB (1 / 5) with
              use_checker_transparency := r.use_checker_transparency } ++ "\n"]))) := by
  refine ⟨fun h => by simp [DiffResult.reprMarkdown, h], fun h hp => ?_, fun q h hp => ?_⟩
  · unfold DiffResult.reprMarkdown
    rw [if_neg h, hp]
  · unfold DiffResult.reprMarkdown
    rw [if_neg h, hp]
    dsimp only
    by_cases hl : r.diff_lines.length > 0
    · rw [if_pos hl, if_pos hl]
    · rw [if_neg hl, if_neg hl, List.append_nil]

/-- Witness for C9 (amended): the sample pixel-difference result renders
to the table (with its diff-lines row) followed by the embedded APNG. -/
theorem repr_markdown_spec_witness :
    DiffResult.reprMarkdown (fun _ => "") pixelDiffSample = .ok (String.intercalate "\n"
      ((["|Meaning|Value|",
         "|-------|-----|",
         "|Status|" ++ statusCell pixelDiffSample.status ++ "|",
         "|Diff Pixel Count|" ++ pyReprOptInt pixelDiffSample.diff_pixel_count ++ "|",
         "|Diff Percentage|" ++ format2f ((1167766 : Rat) / 1000000) ++ "%|"] ++
        (if pixelDiffSample.diff_lines.length > 0 then
          ["|Diff Lines|" ++ pyReprIntList pixelDiffSample.diff_lines ++ "|"]
         else [])) ++
       ["\n<br>" ++ APNG.toHtml (fun _ => "")
          { pixelDiffSample.create_apng 500 1000 redRGB (1 / 5) with
            use_checker_transparency := pixelDiffSample.use_checker_transparency } ++ "\n"])) :=
  (repr_markdown_spec (fun _ => "") pixelDiffSample).2.2 ((1167766 : Rat) / 1000000)
    (by decide) rfl

end OdiffPy

